import Mathlib

/-!
Verification development for the ATS-Friend backend core
(`app/core/service/createresume.py`, `app/core/service/readresume.py`,
`app/core/llm/__init__.py`).

Strings are modelled as `List Char`.  Python's `str.replace(pat, "")`
scans left to right and removes non-overlapping occurrences of `pat`;
it is embedded below as `pyReplace`, a fuel-indexed structural recursion
(the fuel is the string length, which always suffices for a nonempty
pattern, see `pyRepF_fuel_irrel`).  Python's `str.strip()` is embedded
as `pyStrip` over the ASCII whitespace set.
-/

namespace ATS

abbrev Str := List Char

/-- Fuel-indexed core of Python's `s.replace(pat, "")`: at each position,
if `pat` matches, skip past it, otherwise emit one character and move on. -/
def pyRepF (pat : Str) : Nat → Str → Str
  | _, [] => []
  | 0, s => s
  | fuel+1, c :: s =>
    if pat.isPrefixOf (c :: s) then pyRepF pat fuel ((c :: s).drop pat.length)
    else c :: pyRepF pat fuel s

/-- Python `s.replace(pat, "")` for a nonempty pattern `pat`. -/
def pyReplace (pat s : Str) : Str := pyRepF pat s.length s

/-- The whitespace predicate of Python's `str.strip()` (ASCII part). -/
def pyIsSpace (c : Char) : Bool :=
  c = ' ' || c = '\t' || c = '\n' || c = '\r' || c = '\x0b' || c = '\x0c'

/-- Python `s.strip()`: drop whitespace from both ends. -/
def pyStrip (s : Str) : Str :=
  ((s.dropWhile pyIsSpace).reverse.dropWhile pyIsSpace).reverse

/-- The three-backtick fence marker. -/
def ticks : Str := "```".data

/-- The tagged opening fence removed first on the compilation path. -/
def latexFence : Str := "```latex".data

/-- createresume.py line 99:
`latex_code.replace("```latex", "").replace("```", "").strip()`. -/
def cleanLatex (s : Str) : Str :=
  pyStrip (pyReplace ticks (pyReplace latexFence s))

/-- The pattern removed second on the extraction path. -/
def jsonPat : Str := "json".data

/-- llm/__init__.py line 95:
`response_text.replace("```", "").replace("json", "").strip()`. -/
def cleanJson (s : Str) : Str :=
  pyStrip (pyReplace jsonPat (pyReplace ticks s))

/-!
## The compiler pipeline (`createresume.py`)

`convert_latex_to_pdf` is embedded as a function over an explicit
filesystem state and an oracle describing the external `pdflatex`
process.  The `with tempfile.TemporaryDirectory()` block is embedded as:
provision the workspace, run the body (which returns either a value or a
raised exception), then remove the whole directory tree — the removal is
applied to the body's resulting state in every branch, which is exactly
the context-manager semantics (its exit handler runs on normal return
and on exception propagation alike).
-/

/-- A file's content: text (written/read in text mode) or bytes. -/
inductive FData where
  | txt (content : Str)
  | bin (bytes : List Nat)
deriving DecidableEq

/-- Filesystem state: existing directories and files (newest first). -/
structure FS where
  dirs : List Str
  files : List (Str × FData)
deriving DecidableEq

def FS.mkdir (fs : FS) (d : Str) : FS := ⟨d :: fs.dirs, fs.files⟩

def FS.write (fs : FS) (p : Str) (d : FData) : FS := ⟨fs.dirs, (p, d) :: fs.files⟩

def FS.lookup (fs : FS) (p : Str) : Option FData :=
  (fs.files.find? (fun e => e.1 == p)).map (fun e => e.2)

/-- Remove a directory and everything under it (`TemporaryDirectory` exit). -/
def FS.rmtree (fs : FS) (d : Str) : FS :=
  ⟨fs.dirs.filter (fun x => !(d.isPrefixOf x)),
   fs.files.filter (fun e => !(d.isPrefixOf e.1))⟩

/-- createresume.py line 104: `temp_path / f"{output_filename}.tex"`. -/
def texPath (td name : Str) : Str := td ++ ('/' :: name) ++ ".tex".data

/-- createresume.py line 131: `temp_path / f"{output_filename}.log"`. -/
def logPath (td name : Str) : Str := td ++ ('/' :: name) ++ ".log".data

/-- createresume.py line 142: `temp_path / f"{output_filename}.pdf"`. -/
def pdfPath (td name : Str) : Str := td ++ ('/' :: name) ++ ".pdf".data

/-- Oracle for one `pdflatex` child process: how long it would run, its
exit code and error stream, and which files it writes into the workspace. -/
structure ProcSpec where
  duration : Nat
  returncode : Int
  stderrText : Str
  pdfOut : Option (List Nat)
  logOut : Option Str
deriving DecidableEq

/-- Behaviour of the external world during the body: either the child
process runs (`proc`), or an unexpected exception unwinds the call. -/
inductive ProcBehavior where
  | proc (p : ProcSpec)
  | fault (msg : Str)
deriving DecidableEq

/-- createresume.py line 120: `timeout=30`. -/
def pdflatexTimeout : Nat := 30

/-- Result of `subprocess.run(..., timeout=t)`: either the completed
process's exit code and error stream, or no completion with the child
forcibly killed (then `TimeoutExpired` is raised). -/
structure RunOutcome where
  completed : Option (Int × Str)
  killed : Bool
deriving DecidableEq

def subprocessRun (timeLimit : Nat) (p : ProcSpec) : RunOutcome :=
  if timeLimit < p.duration then ⟨none, true⟩
  else ⟨some (p.returncode, p.stderrText), false⟩

/-- A Python call outcome: a returned value or a raised exception. -/
inductive PyResult (α : Type) where
  | ok (value : α)
  | raised (msg : Str)
deriving DecidableEq

/-- The `StreamingResponse` payload of a successful compilation. -/
structure StreamingPdf where
  content : List Nat
  filename : Str
  contentLength : Nat
deriving DecidableEq

def noErrMsg : Str := "No error message provided".data

/-- createresume.py lines 137-139: message of the non-zero-exit error. -/
def failDiag (stderrText log_content : Str) : Str :=
  "PDF generation failed: ".data ++
    (if stderrText = [] then noErrMsg else stderrText) ++
    "\nLog: ".data ++ log_content

def outputMissingMsg : Str := "PDF generation failed: Output file not found.".data

def timeoutMsg : Str := "PDF generation timed out.".data

/-- createresume.py lines 102-111: make the workspace and write the
normalized source to the `.tex` file inside it. -/
def workspaceProvision (latex_code name td : Str) (fs : FS) : FS :=
  (fs.mkdir td).write (texPath td name) (.txt (cleanLatex latex_code))

/-- createresume.py lines 113-174: run `pdflatex` (bounded by 30 s), then
inspect exit code, log file and output file.  The child's file writes are
recorded before the outcome is inspected; a timeout is re-raised as
`RuntimeError("PDF generation timed out.")`; an unexpected fault
propagates.  (`subprocess.CalledProcessError` cannot occur under
`check=False`, so that handler is dead code.) -/
def compileBody (name td : Str) (beh : ProcBehavior) (fs : FS) :
    PyResult StreamingPdf × FS :=
  match beh with
  | .fault m => (.raised m, fs)
  | .proc p =>
    let fs1 := match p.logOut with
      | some l => fs.write (logPath td name) (.txt l)
      | none => fs
    let fs2 := match p.pdfOut with
      | some b => fs1.write (pdfPath td name) (.bin b)
      | none => fs1
    match (subprocessRun pdflatexTimeout p).completed with
    | none => (.raised timeoutMsg, fs2)
    | some (rc, stderrText) =>
      if rc ≠ 0 then
        let log_content := match fs2.lookup (logPath td name) with
          | some (.txt l) => l
          | _ => []
        (.raised (failDiag stderrText log_content), fs2)
      else
        match fs2.lookup (pdfPath td name) with
        | some (.bin pdf_content) =>
          (.ok ⟨pdf_content, name, pdf_content.length⟩, fs2)
        | _ => (.raised outputMissingMsg, fs2)

/-- createresume.py lines 85-174: the full call.  `td` is the fresh
temporary directory name chosen by `tempfile`; the final `rmtree` is the
unconditional `TemporaryDirectory` cleanup. -/
def convert_latex_to_pdf (latex_code name td : Str) (beh : ProcBehavior)
    (fs : FS) : PyResult StreamingPdf × FS :=
  let fs1 := workspaceProvision latex_code name td fs
  let r := compileBody name td beh fs1
  (r.1, r.2.rmtree td)

/-!
## The synthesizer (`create_resume`, createresume.py lines 11-81)
-/

/-- The inputs of `create_resume`, from which its two prompts are built. -/
structure ResumeRequest where
  resume_data : Str
  job_title : Str
  job_description : Str
deriving DecidableEq

/-- createresume.py lines 11-81: build the prompts from the request,
call the generative service (`text_gen`, passed as an oracle), and
return its text verbatim (line 79-81) — no normalization is applied. -/
def create_resume (text_gen : ResumeRequest → Str) (req : ResumeRequest) : Str :=
  text_gen req

/-!
## The extractor (`readresume.py`)
-/

/-- A JSON object entry list (opaque record values). -/
abbrev JDict := List (Str × Str)

/-- The model's parsed JSON output as seen through `resume_data.get(k)`:
`none` is an absent or null field; `some` is a present value (possibly an
empty string or list, which Python treats as falsy). -/
structure ResumeData where
  name : Option Str
  email : Option Str
  phone : Option Str
  address : Option Str
  links : Option (List Str)
  certifications : Option (List JDict)
  projects : Option (List JDict)
  languages : Option (List Str)
  education : Option (List JDict)
  experience : Option (List JDict)
  skills : Option (List Str)
deriving DecidableEq

/-- readresume.py lines 16-27: `name` and `email` are `str`, all other
fields are `Optional`. -/
structure ProfileModel where
  name : Str
  email : Str
  phone : Option Str
  address : Option Str
  links : Option (List Str)
  certifications : Option (List JDict)
  projects : Option (List JDict)
  languages : Option (List Str)
  education : Option (List JDict)
  experience : Option (List JDict)
  skills : Option (List Str)
deriving DecidableEq

/-- Python `x or None` on a string-valued field. -/
def pyOrNone (o : Option Str) : Option Str :=
  match o with
  | some s => if s = [] then none else some s
  | none => none

/-- Python truthiness test `... if resume_data.get(k) else None`. -/
def pyTruthy {α : Type} (o : Option (List α)) : Option (List α) :=
  match o with
  | some [] => none
  | some (a :: l) => some (a :: l)
  | none => none

/-- Python `list(set(xs))`: value-based deduplication, order arbitrary. -/
def pySetList (l : List Str) : List Str := l.dedup

/-- Stand-in for the pydantic `ValidationError` text wrapped at
readresume.py line 109 (`Invalid resume data format: ...`). -/
def validationErrorMsg : Str := "Invalid resume data format".data

/-- readresume.py lines 89-111: build `combined_data` (lines 90-102) and
validate it as a `ProfileModel` (lines 105-109).  A `name` or `email`
that is absent, null or empty becomes `None` (`... or None`) and then
fails validation, raising `RuntimeError`. -/
def convert_pdf_to_json (rd : ResumeData) : Except Str ProfileModel :=
  match pyOrNone rd.name, pyOrNone rd.email with
  | some n, some e =>
    .ok { name := n, email := e, phone := rd.phone, address := rd.address,
          links := (pyTruthy rd.links).map pySetList,
          certifications := pyTruthy rd.certifications,
          projects := pyTruthy rd.projects,
          languages := (pyTruthy rd.languages).map pySetList,
          education := pyTruthy rd.education,
          experience := pyTruthy rd.experience,
          skills := (pyTruthy rd.skills).map pySetList }
  | _, _ => .error validationErrorMsg

/-!
## Path resolution (for the traversal property of `output_filename`)
-/

def splitSlashAux : Str → Str → List Str
  | [], acc => [acc.reverse]
  | c :: s, acc =>
    if c = '/' then acc.reverse :: splitSlashAux s []
    else splitSlashAux s (c :: acc)

def splitSlash (s : Str) : List Str := splitSlashAux s []

def dotdot : Str := "..".data

/-- One step of POSIX-style lexical path resolution. -/
def resolveStep (acc : List Str) (seg : Str) : List Str :=
  if seg = dotdot then acc.dropLast
  else if seg = [] ∨ seg = ".".data then acc
  else acc ++ [seg]

def resolvePath (p : Str) : List Str := (splitSlash p).foldl resolveStep []

/-- The resolved path lies inside the directory. -/
abbrev staysInside (dir p : Str) : Prop := resolvePath dir <+: resolvePath p

/-! ### Concrete sample data used in the closed theorems below -/

/-- A raw model output wrapped in a `latex` fence. -/
def fencedSample : Str := "```latex\nX\n```".data

/-- The diagnostic length produced for exit code 1, empty stderr and log
text `logText`, at a concrete compilation request. -/
def diagLenAt (logText : Str) : Nat :=
  match (convert_latex_to_pdf [] "resume".data "/tmp/w".data
      (.proc ⟨0, 1, [], none, some logText⟩) ⟨[], []⟩).1 with
  | .raised m => m.length
  | .ok _ => 0

/-- The model-output map of an empty JSON object. -/
def emptyResumeData : ResumeData :=
  ⟨none, none, none, none, none, none, none, none, none, none, none⟩

/-- A model output with a duplicated skill entry. -/
def rdSample : ResumeData :=
  { name := some "A".data, email := some "a@b.c".data, phone := none,
    address := none, links := none, certifications := none, projects := none,
    languages := none, education := none, experience := none,
    skills := some ["Python".data, "Python".data, "SQL".data] }

/-- The profile produced for `rdSample`. -/
def pmSample : ProfileModel :=
  { name := "A".data, email := "a@b.c".data, phone := none, address := none,
    links := none, certifications := none, projects := none,
    languages := none, education := none, experience := none,
    skills := some ["Python".data, "SQL".data] }

/-! ### Basic facts about `pyReplace` -/

theorem pyRepF_nil (pat : Str) (fuel : Nat) : pyRepF pat fuel [] = [] := by
  cases fuel <;> rfl

theorem pyRepF_length_le (pat : Str) :
    ∀ fuel s, (pyRepF pat fuel s).length ≤ s.length := by
  intro fuel
  induction fuel with
  | zero => intro s; cases s <;> simp [pyRepF]
  | succ n ih =>
    intro s
    cases s with
    | nil => simp [pyRepF]
    | cons c t =>
      by_cases h : pat.isPrefixOf (c :: t)
      · calc (pyRepF pat (n+1) (c :: t)).length
            = (pyRepF pat n ((c :: t).drop pat.length)).length := by
              simp [pyRepF, h]
          _ ≤ ((c :: t).drop pat.length).length := ih _
          _ ≤ (c :: t).length := by simp
      · calc (pyRepF pat (n+1) (c :: t)).length
            = (pyRepF pat n t).length + 1 := by simp [pyRepF, h]
          _ ≤ t.length + 1 := by exact Nat.succ_le_succ (ih t)
          _ = (c :: t).length := by simp

theorem pyRepF_fuel_irrel (pat : Str) (hpat : pat ≠ []) :
    ∀ f₁ f₂ s, s.length ≤ f₁ → s.length ≤ f₂ →
      pyRepF pat f₁ s = pyRepF pat f₂ s := by
  intro f₁
  induction f₁ with
  | zero =>
    intro f₂ s h₁ _
    have : s = [] := List.eq_nil_of_length_eq_zero (Nat.le_zero.mp h₁)
    subst this; simp [pyRepF_nil]
  | succ n ih =>
    intro f₂ s h₁ h₂
    cases s with
    | nil => simp [pyRepF_nil]
    | cons c t =>
      cases f₂ with
      | zero => exact absurd h₂ (by simp)
      | succ m =>
        by_cases h : pat.isPrefixOf (c :: t)
        · have hlen : ((c :: t).drop pat.length).length ≤ t.length := by
            have hp : 1 ≤ pat.length := by
              cases pat with
              | nil => exact absurd rfl hpat
              | cons a b => simp
            simp only [List.length_drop, List.length_cons]
            omega
          simp only [pyRepF, h, if_pos]
          exact ih m _ (Nat.le_trans hlen (Nat.le_of_succ_le_succ h₁))
            (Nat.le_trans hlen (Nat.le_of_succ_le_succ h₂))
        · simp only [pyRepF, h, if_neg, not_false_iff]
          exact congrArg (c :: ·)
            (ih m t (Nat.le_of_succ_le_succ h₁) (Nat.le_of_succ_le_succ h₂))

/-- Step lemma: when the pattern matches at the head. -/
theorem pyReplace_pos (pat : Str) (hpat : pat ≠ []) (c : Char) (s : Str)
    (h : pat.isPrefixOf (c :: s)) :
    pyReplace pat (c :: s) = pyReplace pat ((c :: s).drop pat.length) := by
  have hp : 1 ≤ pat.length := by
    cases pat with
    | nil => exact absurd rfl hpat
    | cons a b => simp
  have hlen : ((c :: s).drop pat.length).length ≤ s.length := by
    simp only [List.length_drop, List.length_cons]; omega
  unfold pyReplace
  simp only [List.length_cons, pyRepF, h, if_pos]
  exact pyRepF_fuel_irrel pat hpat s.length _ _ hlen (Nat.le_refl _)

/-- Step lemma: when the pattern does not match at the head. -/
theorem pyReplace_neg (pat : Str) (_hpat : pat ≠ []) (c : Char) (s : Str)
    (h : ¬ pat.isPrefixOf (c :: s)) :
    pyReplace pat (c :: s) = c :: pyReplace pat s := by
  unfold pyReplace
  simp [pyRepF, h]

theorem pyReplace_nil (pat : Str) : pyReplace pat [] = [] := rfl

/-! ### Aliases for library lemmas (for uniform naming below) -/

theorem isPrefixOf_eq_pfx {α} [BEq α] [LawfulBEq α] {l₁ l₂ : List α} :
    l₁.isPrefixOf l₂ = true ↔ l₁ <+: l₂ := List.isPrefixOf_iff_prefix

theorem nil_pfx {α} {l : List α} : [] <+: l := List.nil_prefix

theorem rdrop_pfx {α} (p : α → Bool) (l : List α) :
    List.rdropWhile p l <+: l := List.rdropWhile_prefix p l

/-! ### The backtick character and the fence patterns -/

/-- The backtick character (code point 96). -/
def btick : Char := Char.ofNat 96

theorem ticks_eq : ticks = [btick, btick, btick] := by decide

theorem ticks_ne_nil : ticks ≠ [] := by decide

theorem ticks_pfx_latexFence : ticks <+: latexFence := ⟨"latex".data, by decide⟩

theorem isPrefixOf_cons_ticks {c : Char} {t : Str} :
    ticks.isPrefixOf (c :: t) = true ↔ c = btick ∧ [btick, btick] <+: t := by
  rw [isPrefixOf_eq_pfx, ticks_eq, List.cons_prefix_cons]
  exact ⟨fun ⟨h1, h2⟩ => ⟨h1.symm, h2⟩, fun ⟨h1, h2⟩ => ⟨h1.symm, h2⟩⟩

/-! ### `pyReplace` is the identity when the pattern does not occur -/

theorem pyReplace_no_occurrence {pat : Str} (hpat : pat ≠ []) :
    ∀ s : Str, ¬ pat <:+: s → pyReplace pat s = s := by
  intro s
  induction s with
  | nil => intro _; rfl
  | cons c t ih =>
    intro h
    have hpre : ¬ pat.isPrefixOf (c :: t) := by
      intro hp
      exact h (isPrefixOf_eq_pfx.mp hp).isInfix
    rw [pyReplace_neg pat hpat c t hpre,
        ih (fun hi => h (List.infix_cons hi))]

/-! ### After `replace("```", "")` no triple backtick remains -/

theorem pyReplace_ticks_head {c : Char} (t : Str) (hc : c ≠ btick) :
    pyReplace ticks (c :: t) = c :: pyReplace ticks t := by
  apply pyReplace_neg ticks ticks_ne_nil
  rw [isPrefixOf_cons_ticks]
  rintro ⟨h, -⟩
  exact hc h

theorem pyReplace_ticks_head_not_btick (t : Str) (h : ∀ u, t ≠ btick :: u) :
    ∀ u, pyReplace ticks t ≠ btick :: u := by
  cases t with
  | nil => intro u; rw [pyReplace_nil]; exact fun hu => List.noConfusion hu
  | cons c t' =>
    have hc : c ≠ btick := fun hco => h t' (by rw [hco])
    intro u
    rw [pyReplace_ticks_head t' hc]
    intro hu
    injection hu with h1 _
    exact hc h1

theorem two_btick_not_pfx_pyReplace (t : Str) (h : ¬ ([btick, btick] <+: t)) :
    ¬ ([btick, btick] <+: pyReplace ticks t) := by
  cases t with
  | nil =>
    rw [pyReplace_nil]
    intro hp
    exact List.noConfusion (List.prefix_nil.mp hp)
  | cons d t' =>
    by_cases hd : d = btick
    · have ht' : ∀ u, t' ≠ btick :: u := by
        intro u hu
        apply h
        rw [hd, hu]
        exact List.cons_prefix_cons.mpr ⟨rfl, List.cons_prefix_cons.mpr ⟨rfl, nil_pfx⟩⟩
      have hpre : ¬ ticks.isPrefixOf (d :: t') := by
        rw [isPrefixOf_cons_ticks]
        rintro ⟨-, h2⟩
        obtain ⟨r, hr⟩ := h2
        exact ht' (btick :: r) hr.symm
      rw [pyReplace_neg ticks ticks_ne_nil d t' hpre]
      intro hp
      obtain ⟨-, h2⟩ := List.cons_prefix_cons.mp hp
      obtain ⟨r, hr⟩ := h2
      exact pyReplace_ticks_head_not_btick t' ht' r hr.symm
    · rw [pyReplace_ticks_head t' hd]
      intro hp
      obtain ⟨h1, -⟩ := List.cons_prefix_cons.mp hp
      exact hd h1.symm

theorem ticks_not_infix_pyReplace_aux :
    ∀ (n : Nat) (s : Str), s.length ≤ n → ¬ ticks <:+: pyReplace ticks s := by
  intro n
  induction n with
  | zero =>
    intro s hs
    have : s = [] := List.eq_nil_of_length_eq_zero (Nat.le_zero.mp hs)
    subst this
    rw [pyReplace_nil]
    intro h
    exact ticks_ne_nil (List.infix_nil.mp h)
  | succ n ih =>
    intro s hs
    cases s with
    | nil =>
      rw [pyReplace_nil]
      intro h
      exact ticks_ne_nil (List.infix_nil.mp h)
    | cons c t =>
      have hlen : t.length ≤ n := Nat.le_of_succ_le_succ hs
      by_cases hp : ticks.isPrefixOf (c :: t)
      · rw [pyReplace_pos ticks ticks_ne_nil c t hp]
        apply ih
        have h3 : ticks.length = 3 := by decide
        rw [h3]
        simp only [List.drop_succ_cons, List.length_drop]
        omega
      · rw [pyReplace_neg ticks ticks_ne_nil c t hp]
        intro hinf
        rcases List.infix_cons_iff.mp hinf with hpre | hinf'
        · rw [ticks_eq] at hpre
          obtain ⟨h1, h2⟩ := List.cons_prefix_cons.mp hpre
          have hnb : ¬ ([btick, btick] <+: t) := by
            intro hb
            exact hp (isPrefixOf_cons_ticks.mpr ⟨h1.symm, hb⟩)
          exact two_btick_not_pfx_pyReplace t hnb h2
        · exact ih t hlen hinf'

theorem ticks_not_infix_pyReplace (s : Str) : ¬ ticks <:+: pyReplace ticks s :=
  ticks_not_infix_pyReplace_aux s.length s (Nat.le_refl _)

/-! ### Strict shrinking when the pattern occurs -/

theorem pyReplace_length_lt {pat : Str} (hpat : pat ≠ []) :
    ∀ s : Str, pat <:+: s → (pyReplace pat s).length < s.length := by
  intro s
  induction s with
  | nil =>
    intro h
    exact absurd (List.infix_nil.mp h) hpat
  | cons c t ih =>
    intro h
    by_cases hp : pat.isPrefixOf (c :: t)
    · rw [pyReplace_pos pat hpat c t hp]
      have h1 : 1 ≤ pat.length := by
        cases pat with
        | nil => exact absurd rfl hpat
        | cons a b => simp
      calc (pyReplace pat ((c :: t).drop pat.length)).length
          ≤ ((c :: t).drop pat.length).length := pyRepF_length_le _ _ _
        _ < (c :: t).length := by
            simp only [List.length_drop, List.length_cons]
            omega
    · rcases List.infix_cons_iff.mp h with hpre | hinf
      · exact absurd (isPrefixOf_eq_pfx.mpr hpre) hp
      · rw [pyReplace_neg pat hpat c t hp]
        simpa using ih hinf

/-! ### `pyStrip` facts -/

theorem pyStrip_eq_rdrop (s : Str) :
    pyStrip s = List.rdropWhile pyIsSpace (s.dropWhile pyIsSpace) := rfl

theorem pyStrip_within (s : Str) : pyStrip s <:+: s := by
  rw [pyStrip_eq_rdrop]
  exact (rdrop_pfx _ _).isInfix.trans (List.dropWhile_suffix _).isInfix

theorem pyStrip_idem (s : Str) : pyStrip (pyStrip s) = pyStrip s := by
  rw [pyStrip_eq_rdrop, pyStrip_eq_rdrop]
  have hdrop : (List.rdropWhile pyIsSpace (s.dropWhile pyIsSpace)).dropWhile pyIsSpace
      = List.rdropWhile pyIsSpace (s.dropWhile pyIsSpace) := by
    rw [List.dropWhile_eq_self_iff]
    intro hl
    have hpfx := rdrop_pfx pyIsSpace (s.dropWhile pyIsSpace)
    have hget := hpfx.getElem (n := 0) hl
    have hu : (s.dropWhile pyIsSpace).dropWhile pyIsSpace = s.dropWhile pyIsSpace :=
      List.dropWhile_idempotent _ _
    rw [List.dropWhile_eq_self_iff] at hu
    have hlen : 0 < (s.dropWhile pyIsSpace).length :=
      Nat.lt_of_lt_of_le hl hpfx.length_le
    have := hu hlen
    simpa [List.get_eq_getElem, hget] using this
  rw [hdrop, List.rdropWhile_idempotent]

theorem pyStrip_length_le (s : Str) : (pyStrip s).length ≤ s.length :=
  List.IsInfix.length_le (pyStrip_within s)

/-! ### Normalizer-level consequences -/

theorem latexFence_ne_nil : latexFence ≠ [] := by decide

theorem jsonPat_ne_nil : jsonPat ≠ [] := by decide

/-- The compilation-path normalizer leaves no fence marker in its output. -/
theorem cleanLatex_no_ticks (s : Str) : ¬ ticks <:+: cleanLatex s := by
  intro h
  exact ticks_not_infix_pyReplace (pyReplace latexFence s)
    (h.trans (pyStrip_within _))

/-- The compilation-path normalizer is idempotent. -/
theorem cleanLatex_idem (s : Str) : cleanLatex (cleanLatex s) = cleanLatex s := by
  have hnot := cleanLatex_no_ticks s
  have hnofence : ¬ latexFence <:+: cleanLatex s := fun h =>
    hnot (ticks_pfx_latexFence.isInfix.trans h)
  show pyStrip (pyReplace ticks (pyReplace latexFence (cleanLatex s))) = cleanLatex s
  rw [pyReplace_no_occurrence latexFence_ne_nil _ hnofence,
      pyReplace_no_occurrence ticks_ne_nil _ hnot]
  exact pyStrip_idem _

/-- Any occurrence of `json` in the model output strictly shrinks the
extraction-path normalizer's result. -/
theorem cleanJson_shrinks_of_json (s : Str) (h : jsonPat <:+: s) :
    (cleanJson s).length < s.length := by
  by_cases ht : ticks <:+: s
  · have h1 : (pyReplace ticks s).length < s.length :=
      pyReplace_length_lt ticks_ne_nil s ht
    have h2 : (pyReplace jsonPat (pyReplace ticks s)).length ≤
        (pyReplace ticks s).length := pyRepF_length_le _ _ _
    exact Nat.lt_of_le_of_lt (Nat.le_trans (pyStrip_length_le _) h2) h1
  · have he : pyReplace ticks s = s := pyReplace_no_occurrence ticks_ne_nil s ht
    have h1 : (pyReplace jsonPat (pyReplace ticks s)).length < s.length := by
      rw [he]
      exact pyReplace_length_lt jsonPat_ne_nil s h
    exact Nat.lt_of_le_of_lt (pyStrip_length_le _) h1

/-- Any fence marker in the model output strictly shrinks the
extraction-path normalizer's result. -/
theorem cleanJson_shrinks_of_ticks (s : Str) (h : ticks <:+: s) :
    (cleanJson s).length < s.length := by
  have h1 : (pyReplace ticks s).length < s.length :=
    pyReplace_length_lt ticks_ne_nil s h
  have h2 : (pyReplace jsonPat (pyReplace ticks s)).length ≤
      (pyReplace ticks s).length := pyRepF_length_le _ _ _
  exact Nat.lt_of_le_of_lt (Nat.le_trans (pyStrip_length_le _) h2) h1

/-! ### Fence stripping on well-formed fenced inputs -/

theorem ticks_not_pfx_newline (X : Str) (hX : ¬ ticks <:+: X) (r : Str) :
    ¬ (ticks <+: (X ++ '\n' :: r)) := by
  rw [ticks_eq]
  match X with
  | [] =>
    intro h
    obtain ⟨h1, -⟩ := List.cons_prefix_cons.mp h
    exact absurd h1 (by decide)
  | [a] =>
    intro h
    obtain ⟨-, h2⟩ := List.cons_prefix_cons.mp h
    obtain ⟨h3, -⟩ := List.cons_prefix_cons.mp h2
    exact absurd h3 (by decide)
  | a :: b :: X₂ =>
    intro h
    obtain ⟨ha, h2⟩ := List.cons_prefix_cons.mp h
    obtain ⟨hb, h3⟩ := List.cons_prefix_cons.mp h2
    match X₂, h3 with
    | [], h3 =>
      obtain ⟨hc, -⟩ := List.cons_prefix_cons.mp h3
      exact absurd hc (by decide)
    | c :: X₃, h3 =>
      obtain ⟨hc, -⟩ := List.cons_prefix_cons.mp h3
      apply hX
      rw [ticks_eq]
      exact ⟨[], X₃, by rw [← ha, ← hb, ← hc]; simp⟩

theorem pyReplace_latexFence_tail :
    ∀ X, ¬ ticks <:+: X →
      pyReplace latexFence (X ++ '\n' :: ticks) = X ++ '\n' :: ticks := by
  intro X
  induction X with
  | nil =>
    intro _
    decide
  | cons a X₁ ih =>
    intro hX
    have hnp : ¬ latexFence.isPrefixOf ((a :: X₁) ++ '\n' :: ticks) := by
      rw [isPrefixOf_eq_pfx]
      intro h
      exact ticks_not_pfx_newline (a :: X₁) hX ticks (ticks_pfx_latexFence.trans h)
    rw [List.cons_append, pyReplace_neg latexFence latexFence_ne_nil _ _
          (by rw [← List.cons_append]; exact hnp),
        ih (fun hi => hX (List.infix_cons hi))]

theorem pyReplace_ticks_tail :
    ∀ X, ¬ ticks <:+: X →
      pyReplace ticks (X ++ '\n' :: ticks) = X ++ ['\n'] := by
  intro X
  induction X with
  | nil =>
    intro _
    decide
  | cons a X₁ ih =>
    intro hX
    have hnp : ¬ ticks.isPrefixOf ((a :: X₁) ++ '\n' :: ticks) := by
      rw [isPrefixOf_eq_pfx]
      exact ticks_not_pfx_newline (a :: X₁) hX ticks
    rw [List.cons_append, pyReplace_neg ticks ticks_ne_nil _ _
          (by rw [← List.cons_append]; exact hnp),
        ih (fun hi => hX (List.infix_cons hi)), List.cons_append]

theorem pyStrip_fixed_both (X : Str) (hX : pyStrip X = X) :
    X.dropWhile pyIsSpace = X ∧ List.rdropWhile pyIsSpace X = X := by
  have hsuf := List.dropWhile_suffix (l := X) pyIsSpace
  have hlen1 : (X.dropWhile pyIsSpace).length ≤ X.length := hsuf.length_le
  have hlen2 : X.length ≤ (X.dropWhile pyIsSpace).length := by
    conv_lhs => rw [← hX]
    rw [pyStrip_eq_rdrop]
    exact (rdrop_pfx _ _).length_le
  have hu : X.dropWhile pyIsSpace = X :=
    hsuf.eq_of_length (Nat.le_antisymm hlen1 hlen2)
  refine ⟨hu, ?_⟩
  have h2 := hX
  rw [pyStrip_eq_rdrop, hu] at h2
  exact h2

theorem pyStrip_newline_wrap (X : Str) (hX : pyStrip X = X) :
    pyStrip ('\n' :: (X ++ ['\n'])) = X := by
  obtain ⟨hd, hr⟩ := pyStrip_fixed_both X hX
  rw [pyStrip_eq_rdrop]
  have h1 : ('\n' :: (X ++ ['\n'])).dropWhile pyIsSpace
      = (X ++ ['\n']).dropWhile pyIsSpace := by
    rw [List.dropWhile_cons]
    simp [pyIsSpace]
  rw [h1]
  cases X with
  | nil => decide
  | cons x X' =>
    have hx : pyIsSpace x = false := by
      by_contra hpx
      rw [Bool.not_eq_false] at hpx
      rw [List.dropWhile_cons, if_pos hpx] at hd
      have hle : (X'.dropWhile pyIsSpace).length ≤ X'.length :=
        (List.dropWhile_suffix _).length_le
      rw [hd] at hle
      simp at hle
    rw [List.cons_append, List.dropWhile_cons, hx]
    simp only [Bool.false_eq_true, if_false]
    rw [← List.cons_append, List.rdropWhile_concat_pos _ _ _ (by decide)]
    exact hr

theorem pyReplace_self_pfx (pat : Str) (hpat : pat ≠ []) (rest : Str) :
    pyReplace pat (pat ++ rest) = pyReplace pat rest := by
  cases pat with
  | nil => exact absurd rfl hpat
  | cons p ps =>
    have h := pyReplace_pos (p :: ps) hpat p (ps ++ rest)
      (isPrefixOf_eq_pfx.mpr (List.prefix_append _ _))
    rw [List.cons_append, h]
    congr 1
    have he : p :: (ps ++ rest) = (p :: ps) ++ rest := rfl
    rw [he, List.drop_left]

theorem latexFence_eq :
    latexFence = btick :: btick :: btick :: 'l' :: 'a' :: 't' :: 'e' :: 'x' :: [] := by
  decide

theorem nl_cons_no_ticks (X : Str) (h1 : ¬ ticks <:+: X) :
    ¬ ticks <:+: ('\n' :: X) := by
  intro h
  rcases List.infix_cons_iff.mp h with hp | hi
  · rw [ticks_eq] at hp
    obtain ⟨hc, -⟩ := List.cons_prefix_cons.mp hp
    exact absurd hc (by decide)
  · exact h1 hi

theorem not_latexFence_pfx_3 (R : Str) :
    ¬ latexFence.isPrefixOf (btick :: btick :: btick :: '\n' :: R) = true := by
  rw [isPrefixOf_eq_pfx, latexFence_eq]
  intro h
  obtain ⟨-, h⟩ := List.cons_prefix_cons.mp h
  obtain ⟨-, h⟩ := List.cons_prefix_cons.mp h
  obtain ⟨-, h⟩ := List.cons_prefix_cons.mp h
  obtain ⟨hl, -⟩ := List.cons_prefix_cons.mp h
  exact absurd hl (by decide)

theorem not_latexFence_pfx_2 (R : Str) :
    ¬ latexFence.isPrefixOf (btick :: btick :: '\n' :: R) = true := by
  rw [isPrefixOf_eq_pfx, latexFence_eq]
  intro h
  obtain ⟨-, h⟩ := List.cons_prefix_cons.mp h
  obtain ⟨-, h⟩ := List.cons_prefix_cons.mp h
  obtain ⟨hl, -⟩ := List.cons_prefix_cons.mp h
  exact absurd hl (by decide)

theorem not_latexFence_pfx_1 (R : Str) :
    ¬ latexFence.isPrefixOf (btick :: '\n' :: R) = true := by
  rw [isPrefixOf_eq_pfx, latexFence_eq]
  intro h
  obtain ⟨-, h⟩ := List.cons_prefix_cons.mp h
  obtain ⟨hl, -⟩ := List.cons_prefix_cons.mp h
  exact absurd hl (by decide)

/-- Normalizing a fenced input with the `latex` tag recovers the body. -/
theorem cleanLatex_fenced_latex (X : Str) (h1 : ¬ ticks <:+: X)
    (h2 : pyStrip X = X) :
    cleanLatex ("```latex\n".data ++ X ++ "\n```".data) = X := by
  have hX' := nl_cons_no_ticks X h1
  have hform : "```latex\n".data ++ X ++ "\n```".data
      = latexFence ++ (('\n' :: X) ++ '\n' :: ticks) := by
    have e1 : "```latex\n".data = latexFence ++ ['\n'] := by decide
    have e2 : "\n```".data = '\n' :: ticks := by decide
    rw [e1, e2]
    simp
  rw [hform]
  simp only [cleanLatex]
  rw [pyReplace_self_pfx latexFence latexFence_ne_nil _,
      pyReplace_latexFence_tail ('\n' :: X) hX',
      pyReplace_ticks_tail ('\n' :: X) hX', List.cons_append]
  exact pyStrip_newline_wrap X h2

/-- Normalizing a fenced input with no language tag recovers the body. -/
theorem cleanLatex_fenced_plain (X : Str) (h1 : ¬ ticks <:+: X)
    (h2 : pyStrip X = X) :
    cleanLatex ("```\n".data ++ X ++ "\n```".data) = X := by
  have hX' := nl_cons_no_ticks X h1
  have hform : "```\n".data ++ X ++ "\n```".data
      = btick :: btick :: btick :: '\n' :: (X ++ '\n' :: ticks) := by
    have e1 : "```\n".data = btick :: btick :: btick :: ['\n'] := by decide
    have e2 : "\n```".data = '\n' :: ticks := by decide
    rw [e1, e2]
    simp
  rw [hform]
  simp only [cleanLatex]
  rw [pyReplace_neg latexFence latexFence_ne_nil _ _ (not_latexFence_pfx_3 _),
      pyReplace_neg latexFence latexFence_ne_nil _ _ (not_latexFence_pfx_2 _),
      pyReplace_neg latexFence latexFence_ne_nil _ _ (not_latexFence_pfx_1 _),
      ← List.cons_append,
      pyReplace_latexFence_tail ('\n' :: X) hX']
  have hticks : btick :: btick :: btick :: (('\n' :: X) ++ '\n' :: ticks)
      = ticks ++ (('\n' :: X) ++ '\n' :: ticks) := by
    rw [ticks_eq]
    rfl
  rw [hticks, pyReplace_self_pfx ticks ticks_ne_nil _,
      pyReplace_ticks_tail ('\n' :: X) hX', List.cons_append]
  exact pyStrip_newline_wrap X h2


/-! ## Filesystem lemmas -/

theorem FS.lookup_write_self (fs : FS) (p : Str) (d : FData) :
    (fs.write p d).lookup p = some d := by
  simp [FS.lookup, FS.write]

theorem FS.lookup_write_ne (fs : FS) {p q : Str} (d : FData) (h : q ≠ p) :
    (fs.write q d).lookup p = fs.lookup p := by
  simp [FS.lookup, FS.write, List.find?_cons_of_neg, h]

theorem FS.lookup_eq_none_of_ne (fs : FS) (p : Str)
    (h : ∀ e ∈ fs.files, e.1 ≠ p) : fs.lookup p = none := by
  unfold FS.lookup
  rw [List.find?_eq_none.mpr]
  · rfl
  · intro e he
    simp [h e he]

theorem td_pfx_texPath (td name : Str) : td <+: texPath td name := by
  unfold texPath
  rw [List.append_assoc]
  exact List.prefix_append _ _

theorem td_pfx_logPath (td name : Str) : td <+: logPath td name := by
  unfold logPath
  rw [List.append_assoc]
  exact List.prefix_append _ _

theorem td_pfx_pdfPath (td name : Str) : td <+: pdfPath td name := by
  unfold pdfPath
  rw [List.append_assoc]
  exact List.prefix_append _ _

theorem texPath_ne_logPath (td name : Str) : texPath td name ≠ logPath td name := by
  intro h
  unfold texPath logPath at h
  have h2 := List.append_cancel_left h
  exact absurd h2 (by decide)

theorem texPath_ne_pdfPath (td name : Str) : texPath td name ≠ pdfPath td name := by
  intro h
  unfold texPath pdfPath at h
  have h2 := List.append_cancel_left h
  exact absurd h2 (by decide)

theorem logPath_ne_pdfPath (td name : Str) : logPath td name ≠ pdfPath td name := by
  intro h
  unfold logPath pdfPath at h
  have h2 := List.append_cancel_left h
  exact absurd h2 (by decide)

/-- What the body computes when the process completes in time, given a
workspace that contains no stale `.log`/`.pdf` file. -/
theorem compileBody_proc (name td : Str) (p : ProcSpec) (fs : FS)
    (hpdf : fs.lookup (pdfPath td name) = none)
    (hlog : fs.lookup (logPath td name) = none)
    (hdur : p.duration ≤ pdflatexTimeout) :
    (compileBody name td (.proc p) fs).1 =
      if p.returncode = 0 then
        match p.pdfOut with
        | some b => .ok ⟨b, name, b.length⟩
        | none => .raised outputMissingMsg
      else .raised (failDiag p.stderrText (p.logOut.getD [])) := by
  have hrun : (subprocessRun pdflatexTimeout p).completed
      = some (p.returncode, p.stderrText) := by
    unfold subprocessRun
    rw [if_neg (Nat.not_lt.mpr hdur)]
  cases hlo : p.logOut with
  | none =>
    cases hpo : p.pdfOut with
    | none =>
      simp only [compileBody, hlo, hpo, hrun]
      by_cases hrc : p.returncode = 0
      · simp [hrc, hpdf]
      · simp [hrc, hlog]
    | some b =>
      simp only [compileBody, hlo, hpo, hrun]
      by_cases hrc : p.returncode = 0
      · simp [hrc, FS.lookup_write_self]
      · simp [hrc, FS.lookup_write_ne _ _ (logPath_ne_pdfPath td name).symm.symm,
          FS.lookup_write_ne _ _ (Ne.symm (logPath_ne_pdfPath td name)), hlog]
  | some l =>
    cases hpo : p.pdfOut with
    | none =>
      simp only [compileBody, hlo, hpo, hrun]
      by_cases hrc : p.returncode = 0
      · simp [hrc, FS.lookup_write_ne _ _ (texPath_ne_logPath td name).symm.symm,
          FS.lookup_write_ne _ _ (logPath_ne_pdfPath td name), hpdf]
      · simp [hrc, FS.lookup_write_self]
    | some b =>
      simp only [compileBody, hlo, hpo, hrun]
      by_cases hrc : p.returncode = 0
      · simp [hrc, FS.lookup_write_self]
      · simp [hrc, FS.lookup_write_self,
          FS.lookup_write_ne _ _ (Ne.symm (logPath_ne_pdfPath td name))]

theorem provision_lookup_pdf (code name td : Str) (fs : FS)
    (hfresh : ∀ e ∈ fs.files, ¬ (td <+: e.1)) :
    (workspaceProvision code name td fs).lookup (pdfPath td name) = none := by
  unfold workspaceProvision
  rw [FS.lookup_write_ne _ _ (texPath_ne_pdfPath td name)]
  exact FS.lookup_eq_none_of_ne _ _
    (fun e he hp => hfresh e he (by rw [hp]; exact td_pfx_pdfPath td name))

theorem provision_lookup_log (code name td : Str) (fs : FS)
    (hfresh : ∀ e ∈ fs.files, ¬ (td <+: e.1)) :
    (workspaceProvision code name td fs).lookup (logPath td name) = none := by
  unfold workspaceProvision
  rw [FS.lookup_write_ne _ _ (texPath_ne_logPath td name)]
  exact FS.lookup_eq_none_of_ne _ _
    (fun e he hp => hfresh e he (by rw [hp]; exact td_pfx_logPath td name))

/-! ## The claims -/

/-- C1: for every compilation request — success, compiler non-zero exit,
missing output file, timeout, or an unexpected exception unwinding the
call — the workspace directory `td` created by `convert_latex_to_pdf` no
longer exists in the resulting filesystem state, and no file under it
survives. -/
theorem workspace_cleanup_unconditional (latex_code name td : Str)
    (beh : ProcBehavior) (fs : FS) :
    td ∉ ((convert_latex_to_pdf latex_code name td beh fs).2).dirs ∧
    ((convert_latex_to_pdf latex_code name td beh fs).2).files.all
      (fun e => !(td.isPrefixOf e.1)) = true := by
  have hconv : (convert_latex_to_pdf latex_code name td beh fs).2
      = ((compileBody name td beh (workspaceProvision latex_code name td fs)).2).rmtree
          td := rfl
  constructor
  · intro hmem
    rw [hconv] at hmem
    have h2 := (List.mem_filter.mp hmem).2
    have h3 : td.isPrefixOf td = true := isPrefixOf_eq_pfx.mpr (List.prefix_refl td)
    rw [h3] at h2
    simp at h2
  · rw [hconv, List.all_eq_true]
    intro e he
    exact (List.mem_filter.mp he).2

/-- C3: the compiler child process is bounded by the wall-clock budget of
30 seconds (`pdflatexTimeout`, the literal `timeout=30`); a process that
would run longer is forcibly killed (`killed = true`), the call raises
`RuntimeError("PDF generation timed out.")`, and the outcome is never a
success. -/
theorem timeout_forces_failure (latex_code name td : Str) (p : ProcSpec)
    (fs : FS) (h : pdflatexTimeout < p.duration) :
    subprocessRun pdflatexTimeout p = ⟨none, true⟩ ∧
    (convert_latex_to_pdf latex_code name td (.proc p) fs).1 = .raised timeoutMsg ∧
    ∀ r, (convert_latex_to_pdf latex_code name td (.proc p) fs).1 ≠ .ok r := by
  have hrun : subprocessRun pdflatexTimeout p = ⟨none, true⟩ := by
    unfold subprocessRun
    rw [if_pos h]
  have hres : (convert_latex_to_pdf latex_code name td (.proc p) fs).1
      = .raised timeoutMsg := by
    have hfst : (convert_latex_to_pdf latex_code name td (.proc p) fs).1
        = (compileBody name td (.proc p)
            (workspaceProvision latex_code name td fs)).1 := rfl
    rw [hfst]
    simp only [compileBody, hrun]
  refine ⟨hrun, hres, ?_⟩
  intro r hr
  rw [hres] at hr
  exact PyResult.noConfusion hr

theorem timeout_forces_failure_witness :
    (convert_latex_to_pdf [] "resume".data "/t".data
        (.proc ⟨31, 0, [], some [37], none⟩) ⟨[], []⟩).1 = .raised timeoutMsg :=
  (timeout_forces_failure [] "resume".data "/t".data
    ⟨31, 0, [], some [37], none⟩ ⟨[], []⟩ (by decide)).2.1

theorem diagLenAt_eq (l : Str) : diagLenAt l = 54 + l.length := by
  have h := compileBody_proc "resume".data "/tmp/w".data ⟨0, 1, [], none, some l⟩
    (workspaceProvision [] "resume".data "/tmp/w".data ⟨[], []⟩)
    (provision_lookup_pdf _ _ _ _ (by simp))
    (provision_lookup_log _ _ _ _ (by simp))
    (by decide : (0 : Nat) ≤ 30)
  unfold diagLenAt
  have hfst : (convert_latex_to_pdf [] "resume".data "/tmp/w".data
      (.proc ⟨0, 1, [], none, some l⟩) ⟨[], []⟩).1
      = (compileBody "resume".data "/tmp/w".data (.proc ⟨0, 1, [], none, some l⟩)
          (workspaceProvision [] "resume".data "/tmp/w".data ⟨[], []⟩)).1 := rfl
  rw [hfst, h, if_neg (by decide : ¬ ((1 : Int) = 0))]
  have e1 : ("PDF generation failed: ".data).length = 23 := by decide
  have e2 : noErrMsg.length = 25 := by decide
  have e3 : ("\nLog: ".data).length = 6 := by decide
  simp [failDiag, e1, e2, e3]
  omega

/-- C2, counterexample: the diagnostic of a non-zero-exit failure is not
truncated to any bounded size — the full compiler log is embedded in the
error message, so its length exceeds every claimed bound. -/
theorem diagnostic_size_unbounded :
    ¬ ∃ N, ∀ logText : Str, diagLenAt logText ≤ N := by
  rintro ⟨N, hN⟩
  have h := hN (List.replicate (N + 1) 'a')
  rw [diagLenAt_eq] at h
  simp at h
  omega

/-- C2, amended: `convert_latex_to_pdf` succeeds exactly when the process
exits with code zero and the output PDF is present; on a non-zero exit
the diagnostic is the error stream (or a fixed fallback) followed by the
full, untruncated log file content; a zero exit with the output file
absent raises the fixed `Output file not found.` message. -/
theorem success_iff_zero_exit_and_pdf (code name td : Str) (p : ProcSpec)
    (fs : FS) (hfresh : ∀ e ∈ fs.files, ¬ (td <+: e.1))
    (hdur : p.duration ≤ pdflatexTimeout) :
    ((∃ r, (convert_latex_to_pdf code name td (.proc p) fs).1 = .ok r) ↔
      (p.returncode = 0 ∧ p.pdfOut.isSome = true)) ∧
    (p.returncode ≠ 0 →
      (convert_latex_to_pdf code name td (.proc p) fs).1 =
        .raised (failDiag p.stderrText (p.logOut.getD []))) ∧
    (p.returncode = 0 → p.pdfOut = none →
      (convert_latex_to_pdf code name td (.proc p) fs).1 = .raised outputMissingMsg) ∧
    (∀ b, p.returncode = 0 → p.pdfOut = some b →
      (convert_latex_to_pdf code name td (.proc p) fs).1 = .ok ⟨b, name, b.length⟩) := by
  have hfst : (convert_latex_to_pdf code name td (.proc p) fs).1
      = (compileBody name td (.proc p) (workspaceProvision code name td fs)).1 := rfl
  have hbody := compileBody_proc name td p (workspaceProvision code name td fs)
    (provision_lookup_pdf code name td fs hfresh)
    (provision_lookup_log code name td fs hfresh) hdur
  rw [hfst, hbody]
  by_cases hrc : p.returncode = 0
  · cases hpo : p.pdfOut with
    | none =>
      refine ⟨?_, ?_, ?_, ?_⟩
      · simp [hrc, hpo]
      · intro hne
        exact absurd hrc hne
      · intro _ _
        simp [hrc]
      · intro b _ hb
        exact Option.noConfusion hb
    | some b =>
      refine ⟨?_, ?_, ?_, ?_⟩
      · simp [hrc, hpo]
      · intro hne
        exact absurd hrc hne
      · intro _ hnone
        exact Option.noConfusion hnone
      · intro b' _ hb
        injection hb with hb
        subst hb
        simp [hrc]
  · refine ⟨?_, ?_, ?_, ?_⟩
    · simp [hrc]
    · intro _
      simp [hrc]
    · intro h0
      exact absurd h0 hrc
    · intro b h0
      exact absurd h0 hrc

theorem success_iff_zero_exit_and_pdf_witness :
    (convert_latex_to_pdf [] "resume".data "/t".data
        (.proc ⟨0, 0, [], some [37], none⟩) ⟨[], []⟩).1
      = .ok ⟨[37], "resume".data, 1⟩ := by
  have h := success_iff_zero_exit_and_pdf [] "resume".data "/t".data
      ⟨0, 0, [], some [37], none⟩ ⟨[], []⟩ (by simp) (by decide)
  exact h.2.2.2 [37] rfl rfl

/-- C4, counterexample: the extraction-path normalizer is not idempotent:
deleting the `json` occurrences of `jjsonson` splices together a new
`json`, which only a second application deletes. -/
theorem extraction_normalizer_not_idempotent :
    cleanJson (cleanJson "jjsonson".data) ≠ cleanJson "jjsonson".data := by
  decide

/-- C4, amended: the compilation-path normalizer is idempotent for all
strings (the extraction-path normalizer is not, see the counterexample). -/
theorem compile_normalizer_idempotent (s : Str) :
    cleanLatex (cleanLatex s) = cleanLatex s :=
  cleanLatex_idem s

/-- C5, counterexample: with language tag `python` and body `X`, the
normalizer leaves the tag in place: the result is `python\nX`, not `X`. -/
theorem fence_tag_survives :
    cleanLatex "```python\nX\n```".data = "python\nX".data ∧
    cleanLatex "```python\nX\n```".data ≠ "X".data :=
  ⟨by decide, by decide⟩

/-- C5, amended: for the tag `latex` and for the empty tag, and for bodies
containing no fence marker and no surrounding whitespace, normalizing the
fenced input yields exactly the body. -/
theorem fence_stripping_latex_or_plain (X : Str)
    (h1 : ¬ ticks <:+: X) (h2 : pyStrip X = X) :
    cleanLatex ("```latex\n".data ++ X ++ "\n```".data) = X ∧
    cleanLatex ("```\n".data ++ X ++ "\n```".data) = X :=
  ⟨cleanLatex_fenced_latex X h1 h2, cleanLatex_fenced_plain X h1 h2⟩

theorem fence_stripping_latex_or_plain_witness :
    (¬ ticks <:+: "Hello".data) ∧ pyStrip "Hello".data = "Hello".data ∧
    cleanLatex "```latex\nHello\n```".data = "Hello".data := by
  have h1 : ¬ ticks <:+: "Hello".data := by decide
  have h2 : pyStrip "Hello".data = "Hello".data := by decide
  have h := (fence_stripping_latex_or_plain "Hello".data h1 h2).1
  have he : "```latex\n".data ++ "Hello".data ++ "\n```".data
      = "```latex\nHello\n```".data := by decide
  rw [he] at h
  exact ⟨h1, h2, h⟩

/-- C6, counterexample: `create_resume` returns the generative service's
text verbatim (lines 79-81); when the service wraps the source in a
fence, the returned text still contains the fence marker. -/
theorem create_resume_returns_raw :
    create_resume (fun _ => fencedSample) ⟨[], [], []⟩ = fencedSample ∧
    ticks <:+: create_resume (fun _ => fencedSample) ⟨[], [], []⟩ :=
  ⟨rfl, by decide⟩

/-- C6, amended: the normalization the claim attributes to
`create_resume` is applied by `convert_latex_to_pdf` instead: the source
file written into the workspace holds the normalized text of
`create_resume`'s raw output, and that text contains no fence marker. -/
theorem normalization_happens_in_compiler (text_gen : ResumeRequest → Str)
    (req : ResumeRequest) (name td : Str) (fs : FS) :
    (workspaceProvision (create_resume text_gen req) name td fs).lookup
        (texPath td name)
      = some (.txt (cleanLatex (create_resume text_gen req))) ∧
    ¬ ticks <:+: cleanLatex (create_resume text_gen req) :=
  ⟨FS.lookup_write_self _ _ _, cleanLatex_no_ticks _⟩

/-- C7, counterexample: the empty model output (every field absent) does
not produce a profile with a null name — `name`/`email` are declared
`str`, validation fails, and the call raises instead. -/
theorem missing_name_rejected :
    convert_pdf_to_json emptyResumeData = .error validationErrorMsg := rfl

/-- C7, amended: every field except `name` and `email` is null-preserved
(absent or null passes through as null, never coerced to an empty string
or an empty list); an absent, null or empty `name` or `email` makes
validation fail instead of yielding a null field. -/
theorem null_preservation_nonidentity_fields (rd : ResumeData) :
    (rd.name = none → convert_pdf_to_json rd = .error validationErrorMsg) ∧
    (rd.email = none → convert_pdf_to_json rd = .error validationErrorMsg) ∧
    (∀ pm, convert_pdf_to_json rd = .ok pm →
      pm.phone = rd.phone ∧ pm.address = rd.address ∧
      (rd.links = none → pm.links = none) ∧
      (rd.certifications = none → pm.certifications = none) ∧
      (rd.projects = none → pm.projects = none) ∧
      (rd.languages = none → pm.languages = none) ∧
      (rd.education = none → pm.education = none) ∧
      (rd.experience = none → pm.experience = none) ∧
      (rd.skills = none → pm.skills = none)) := by
  refine ⟨?_, ?_, ?_⟩
  · intro hn
    unfold convert_pdf_to_json
    rw [hn]
    cases pyOrNone rd.email <;> rfl
  · intro he
    unfold convert_pdf_to_json
    rw [he]
    cases pyOrNone rd.name <;> rfl
  · intro pm hok
    unfold convert_pdf_to_json at hok
    cases hn : pyOrNone rd.name with
    | none =>
      rw [hn] at hok
      cases pyOrNone rd.email <;> simp at hok
    | some n =>
      cases he : pyOrNone rd.email with
      | none =>
        rw [hn, he] at hok
        simp at hok
      | some e =>
        rw [hn, he] at hok
        injection hok with hok
        subst hok
        refine ⟨rfl, rfl, ?_, ?_, ?_, ?_, ?_, ?_, ?_⟩ <;>
          (intro hfield; rw [hfield]; rfl)

theorem null_preservation_nonidentity_fields_witness :
    convert_pdf_to_json emptyResumeData = Except.error validationErrorMsg ∧
    pmSample.links = none ∧ pmSample.phone = none := by
  refine ⟨(null_preservation_nonidentity_fields emptyResumeData).1 rfl, ?_, ?_⟩
  · exact ((null_preservation_nonidentity_fields rdSample).2.2 pmSample rfl).2.2.1 rfl
  · exact ((null_preservation_nonidentity_fields rdSample).2.2 pmSample rfl).1

theorem dedup_field_spec (o : Option (List Str)) (l : List Str)
    (h : (pyTruthy o).map pySetList = some l) :
    l.Nodup ∧ ∃ l₀, o = some l₀ ∧ ∀ x, x ∈ l ↔ x ∈ l₀ := by
  cases o with
  | none => simp [pyTruthy] at h
  | some l₀ =>
    cases l₀ with
    | nil => simp [pyTruthy] at h
    | cons a t =>
      simp only [pyTruthy, Option.map_some] at h
      injection h with h
      refine ⟨?_, a :: t, rfl, ?_⟩
      · rw [← h]
        exact List.nodup_dedup _
      · intro x
        rw [← h]
        exact List.mem_dedup

/-- C8: in every successfully extracted profile, the list-valued atomic
fields (skills, languages, links) are duplicate-free and hold exactly the
values of the model's output list (order not guaranteed). -/
theorem list_fields_deduplicated (rd : ResumeData) (pm : ProfileModel)
    (h : convert_pdf_to_json rd = .ok pm) :
    (∀ l, pm.skills = some l →
      l.Nodup ∧ ∃ l₀, rd.skills = some l₀ ∧ ∀ x, x ∈ l ↔ x ∈ l₀) ∧
    (∀ l, pm.languages = some l →
      l.Nodup ∧ ∃ l₀, rd.languages = some l₀ ∧ ∀ x, x ∈ l ↔ x ∈ l₀) ∧
    (∀ l, pm.links = some l →
      l.Nodup ∧ ∃ l₀, rd.links = some l₀ ∧ ∀ x, x ∈ l ↔ x ∈ l₀) := by
  unfold convert_pdf_to_json at h
  cases hn : pyOrNone rd.name with
  | none =>
    rw [hn] at h
    cases pyOrNone rd.email <;> simp at h
  | some n =>
    cases he : pyOrNone rd.email with
    | none =>
      rw [hn, he] at h
      simp at h
    | some e =>
      rw [hn, he] at h
      injection h with h
      subst h
      exact ⟨fun l hl => dedup_field_spec rd.skills l hl,
        fun l hl => dedup_field_spec rd.languages l hl,
        fun l hl => dedup_field_spec rd.links l hl⟩

theorem list_fields_deduplicated_witness :
    convert_pdf_to_json rdSample = Except.ok pmSample ∧
    (["Python".data, "SQL".data].Nodup ∧ ∃ l₀, rdSample.skills = some l₀ ∧
      ∀ x, x ∈ ["Python".data, "SQL".data] ↔ x ∈ l₀) := by
  have h : convert_pdf_to_json rdSample = Except.ok pmSample := rfl
  exact ⟨h, (list_fields_deduplicated rdSample pmSample h).1 _ rfl⟩

/-- C9: `convert_latex_to_pdf` performs no sanitization of
`output_filename`; with the caller-supplied name `../../etc/passwd`, the
source-file path built at line 104 resolves outside the workspace, so the
claimed traversal-impossibility is violated (a separator-free name stays
inside). -/
theorem output_filename_traversal_escapes :
    texPath "/tmp/tmpw1abc".data "../../etc/passwd".data
      = "/tmp/tmpw1abc/../../etc/passwd.tex".data ∧
    ¬ staysInside "/tmp/tmpw1abc".data
        (texPath "/tmp/tmpw1abc".data "../../etc/passwd".data) ∧
    staysInside "/tmp/tmpw1abc".data
        (texPath "/tmp/tmpw1abc".data "resume".data) :=
  ⟨by decide, by decide, by decide⟩

/-- C10: the extraction-path normalizer deletes `json` and fence
substrings anywhere in the model's output, not only at fence delimiters:
whenever the output contains `json` (or a fence) the text handed to the
JSON parser differs from it; e.g. a body value `jsonschema` is mangled to
`schema`. -/
theorem json_deleted_anywhere :
    (∀ s : Str, jsonPat <:+: s → cleanJson s ≠ s) ∧
    (∀ s : Str, ticks <:+: s → cleanJson s ≠ s) ∧
    cleanJson "let x = [jsonschema]".data = "let x = [schema]".data := by
  refine ⟨?_, ?_, by decide⟩
  · intro s h heq
    have hlt := cleanJson_shrinks_of_json s h
    rw [heq] at hlt
    exact Nat.lt_irrefl _ hlt
  · intro s h heq
    have hlt := cleanJson_shrinks_of_ticks s h
    rw [heq] at hlt
    exact Nat.lt_irrefl _ hlt

theorem json_deleted_anywhere_witness :
    jsonPat <:+: "[jsonschema]".data ∧
    cleanJson "[jsonschema]".data ≠ "[jsonschema]".data := by
  have h : jsonPat <:+: "[jsonschema]".data := by decide
  exact ⟨h, json_deleted_anywhere.1 _ h⟩

end ATS
